import Mathlib

/-!
Shallow embedding of `src/sync_linear_to_gcal.py`.

The script reconciles Linear issues against a Google Calendar:
for each issue it resolves a driving date, builds an event body, searches
the calendar for an event carrying the issue's id in its private extended
properties, and patches it if found or inserts a new event otherwise.

Modelling conventions:
* Machine time is modelled in whole seconds (`Int`); `timedelta(days=n)`
  is `n * 86400` seconds, `timedelta(hours=1)` is `3600` seconds, and
  `datetime.time.max` (23:59:59.999999) is second `86399` of its day
  (the sub-second part is below the model's granularity).
* A date-bearing string field is modelled by `DateStrM`: the script only
  ever asks whether the character `T` occurs in the string and what
  `dateutil.parser.isoparse` returns for it, so the model records exactly
  those two observations.  An absent or empty (falsy) field is modelled
  as `Option.none` at the use site.
* The external Google Calendar store is modelled by `GStore`: the events
  in store order, the next store-assigned id, and a fault model (fixed
  for the run) saying which searches, inserts and patches the backend
  rejects with an HTTP error.  `events.list` filtered by
  `privateExtendedProperty=linear_id=...` and a `timeMin`/`timeMax`
  window is modelled as filtering by the correlation key and by the
  event's start instant lying in the window; the driver-level model
  returns the matches as a single page, and the page-by-page loop of
  `find_event_by_linear_id` is modelled separately by `findPagedE` over
  the store's page trace.
* Python exceptions become `Except SyncErr`; `main` catches every
  per-item exception uniformly.
* Issues are the dictionaries produced by the GraphQL query in
  `get_issues_with_metadata`, so every requested key is present (possibly
  null); `Option.none` models a null (or, for strings, empty) value.
-/

namespace Sync

/-- Error raised while processing one issue: a date-parse failure
(`dateutil` raises on a malformed string) or an HTTP error from the
calendar store (`googleapiclient.errors.HttpError`). -/
inductive SyncErr
  | parse
  | http
deriving DecidableEq

/-- A date-bearing string as the script observes it: `hasT` is whether
the character `T` occurs in the string (`"T" in s`), `parsed` is what
`parser.isoparse` yields — for a string with a time component the UTC
instant in seconds, for a date-only string the day number; `none` models
a string `isoparse` rejects. -/
structure DateStrM where
  hasT : Bool
  parsed : Option Int
deriving DecidableEq

/-- Start or end of a calendar event: a `dateTime` instant (seconds UTC,
the `timeZone` display field of the body is a run-constant and is not
modelled) or an all-day `date` (day number). -/
inductive EvTime
  | dateTime (t : Int)
  | date (d : Int)
deriving DecidableEq

/-- The instant the store files an event under when filtering by
`timeMin`/`timeMax`: a `dateTime` is its own instant, an all-day date
starts at midnight UTC of its day. -/
def EvTime.instant : EvTime → Int
  | EvTime.dateTime t => t
  | EvTime.date d => d * 86400

/-- The `project` object attached to an issue. -/
structure Project where
  id : Option String
  name : Option String
  description : Option String
  url : Option String
  targetDate : Option DateStrM
deriving DecidableEq

/-- The `parent` object attached to an issue. -/
structure Parent where
  id : Option String
  title : Option String
  url : Option String
deriving DecidableEq

/-- One node of `children.nodes`. -/
structure Child where
  title : Option String
  url : Option String
deriving DecidableEq

/-- One node of the issue's label list. -/
structure Label where
  name : Option String
  color : Option String
deriving DecidableEq

/-- A Linear issue as returned by `get_issues_with_metadata`. -/
structure Issue where
  id : Option String
  title : Option String
  description : Option String
  url : Option String
  dueDate : Option DateStrM
  createdAt : Option DateStrM
  startedAt : Option DateStrM
  completedAt : Option DateStrM
  project : Option Project
  parent : Option Parent
  children : List Child
  labels : List Label
deriving DecidableEq

/-- Python `x or ""` on an optional string: `None` and `""` are both
falsy and give `""`. -/
def strv (s : Option String) : String := s.getD ""

/-- Python truthiness of an optional string. -/
def truthyS (s : Option String) : Bool := strv s != ""

/-- The `or {}` default used for a null project. -/
def Project.empty : Project := ⟨none, none, none, none, none⟩

/-- The `or {}` default used for a null parent. -/
def Parent.empty : Parent := ⟨none, none, none⟩

/-- Python `d.get(key, "N/A")` interpolated into an f-string: the GraphQL
query always includes the requested keys, so a missing value is a null,
which Python renders as the string `None`; the `"N/A"` default is dead. -/
def pyStr (s : Option String) : String := s.getD "None"

/-- `format_rich_description` (lines 229–287): the enriched event
description assembled from the issue's metadata; sections are omitted
when the underlying relation is absent. -/
def format_rich_description (issue : Issue) : String :=
  let parts1 : List String :=
    if truthyS issue.description then
      ["\xF0\x9F\x93\x9D Description de l\x27issue:", strv issue.description, ""]
    else []
  let parts2 : List String :=
    match issue.project with
    | none => []
    | some p =>
        ["\xF0\x9F\x93\x81 Projet:", "  \xE2\x80\xA2 " ++ pyStr p.name]
        ++ (if truthyS p.description then
              ["  \xE2\x80\xA2 Description: " ++ strv p.description] else [])
        ++ (if truthyS p.url then ["  \xE2\x80\xA2 Lien: " ++ strv p.url] else [])
        ++ [""]
  let parts3 : List String :=
    match issue.parent with
    | none => []
    | some pa =>
        if truthyS pa.title then
          ["Issue parente:", "  \xE2\x80\xA2 " ++ pyStr pa.title]
          ++ (if truthyS pa.url then ["  \xE2\x80\xA2 Lien: " ++ strv pa.url] else [])
          ++ [""]
        else []
  let parts4 : List String :=
    if issue.children.isEmpty then []
    else
      ["Sous-issues:"]
      ++ (issue.children.map (fun c =>
            ["  \xE2\x80\xA2 " ++ pyStr c.title]
            ++ (if truthyS c.url then ["    " ++ strv c.url] else []))).flatten
      ++ [""]
  let parts5 : List String :=
    if issue.labels.isEmpty then []
    else
      ["Labels:"]
      ++ issue.labels.map (fun l =>
            "  \xE2\x80\xA2 " ++ pyStr l.name
            ++ (if truthyS l.color then " (#" ++ strv l.color ++ ")" else ""))
      ++ [""]
  let parts6 : List String :=
    if truthyS issue.url then ["Lien Linear:", strv issue.url] else []
  String.intercalate "\n" (parts1 ++ parts2 ++ parts3 ++ parts4 ++ parts5 ++ parts6)

/-- `get_best_date_for_issue` (lines 155–186): fixed priority order
`dueDate`, project `targetDate`, `completedAt`, `startedAt`, `createdAt`;
returns the chosen date string tagged with its source field name, or
`none` when no field is populated.  (This function is defined by the
script but never called by its driver.) -/
def get_best_date_for_issue (issue : Issue) : Option (DateStrM × String) :=
  match issue.dueDate with
  | some d => some (d, "dueDate")
  | none =>
    match (issue.project.getD Project.empty).targetDate with
    | some d => some (d, "project_targetDate")
    | none =>
      match issue.completedAt with
      | some d => some (d, "completedAt")
      | none =>
        match issue.startedAt with
        | some d => some (d, "startedAt")
        | none =>
          match issue.createdAt with
          | some d => some (d, "createdAt")
          | none => none

/-- `SEARCH_WINDOW_DAYS` default (line 29). -/
def SEARCH_WINDOW_DAYS : Nat := 365

/-- `make_search_window_for_date` (lines 138–153): `(timeMin, timeMax)`
around the target.  No target: now ± days.  Target with a time
component: parsed instant ± days.  Date-only target: start of day
`d - days` to end of day `d + days`.  A malformed target makes
`parser.isoparse` raise. -/
def make_search_window_for_date (now : Int) (days : Nat) (target : Option DateStrM) :
    Except SyncErr (Int × Int) :=
  match target with
  | none => Except.ok (now - (days : Int) * 86400, now + (days : Int) * 86400)
  | some s =>
    if s.hasT then
      match s.parsed with
      | none => Except.error SyncErr.parse
      | some t => Except.ok (t - (days : Int) * 86400, t + (days : Int) * 86400)
    else
      match s.parsed with
      | none => Except.error SyncErr.parse
      | some d =>
          Except.ok ((d - (days : Int)) * 86400, (d + (days : Int)) * 86400 + 86399)

/-- The body the script sends to the store for an event.  The
`extendedProperties.private` map is flattened into the string fields
after `start`/`end`; a null value in a `.get(k, "")` position is
modelled as `""` (the claims only touch `linear_id`, which the script
explicitly defaults with `or ""`). -/
structure EventBody where
  summary : String
  description : String
  start : EvTime
  end_ : EvTime
  linear_id : String
  linear_kind : String
  linear_url : String
  project_id : String
  project_name : String
  parent_id : String
  labels : String
deriving DecidableEq

/-- The start instant used when the due string has a `T`: the parsed
instant, or `datetime.utcnow()` when parsing raised (lines 309–315). -/
def startT (now : Int) (due : DateStrM) : Int := due.parsed.getD now

/-- The event dictionary built at lines 330–346, given the start/end
range computed by the date branch. -/
def mkBodyBase (issue : Issue) (s e : EvTime) : EventBody :=
  { summary := if truthyS issue.title then strv issue.title else "No title"
    description := format_rich_description issue
    start := s
    end_ := e
    linear_id := strv issue.id
    linear_kind := "issue"
    linear_url := strv issue.url
    project_id := strv (issue.project.getD Project.empty).id
    project_name := strv (issue.project.getD Project.empty).name
    parent_id := strv (issue.parent.getD Parent.empty).id
    labels := String.intercalate ","
      ((issue.labels.filter (fun l => truthyS l.name)).map (fun l => strv l.name)) }

/-- `build_event_body_from_issue` (lines 289–347): `ok none` when the
issue has no (truthy) `dueDate`; for a due string with a `T` the range is
the parsed instant (falling back to now) plus one hour; for a date-only
string the range is the parsed day to the next day, and a parse failure
raises. -/
def build_event_body_from_issue (now : Int) (issue : Issue) :
    Except SyncErr (Option EventBody) :=
  match issue.dueDate with
  | none => Except.ok none
  | some due =>
    if due.hasT then
      Except.ok (some (mkBodyBase issue
        (EvTime.dateTime (startT now due))
        (EvTime.dateTime (startT now due + 3600))))
    else
      match due.parsed with
      | none => Except.error SyncErr.parse
      | some d =>
          Except.ok (some (mkBodyBase issue (EvTime.date d) (EvTime.date (d + 1))))

/-- An event held by the store: the store-assigned id and the body last
written for it. -/
structure GEvent where
  id : Nat
  body : EventBody
deriving DecidableEq

/-- The calendar store: events in store order, the next store-assigned
id, and a fault model fixed for the run — correlation keys whose search
fails, keys whose insert fails, and event ids whose patch fails. -/
structure GStore where
  events : List GEvent
  nextId : Nat
  failSearch : List String
  failInsert : List String
  failPatch : List Nat
deriving DecidableEq

/-- The store-side filter of `events.list`: private extended property
`linear_id` equals the key and the event's instant lies in the window. -/
def evMatch (lid : String) (tmin tmax : Int) (e : GEvent) : Bool :=
  e.body.linear_id == lid
    && decide (tmin ≤ e.body.start.instant)
    && decide (e.body.start.instant ≤ tmax)

/-- `service.events().list(...)` as the driver model sees it: all
matching events in store order as a single page, or an HTTP error. -/
def storeList (st : GStore) (tmin tmax : Int) (lid : String) :
    Except SyncErr (List GEvent) :=
  if lid ∈ st.failSearch then Except.error SyncErr.http
  else Except.ok (st.events.filter (evMatch lid tmin tmax))

/-- `service.events().insert(...)`: the store assigns the next id and
appends the event. -/
def storeInsert (st : GStore) (body : EventBody) :
    Except SyncErr (GEvent × GStore) :=
  if body.linear_id ∈ st.failInsert then Except.error SyncErr.http
  else
    Except.ok (⟨st.nextId, body⟩,
      { st with events := st.events ++ [⟨st.nextId, body⟩], nextId := st.nextId + 1 })

/-- `service.events().patch(...)`: replaces the stored body of the event
with the given id (the engine always supplies the full body). -/
def storePatch (st : GStore) (eid : Nat) (body : EventBody) :
    Except SyncErr (GEvent × GStore) :=
  if eid ∈ st.failPatch then Except.error SyncErr.http
  else
    Except.ok (⟨eid, body⟩,
      { st with events := st.events.map (fun e => if e.id = eid then ⟨eid, body⟩ else e) })

/-- `find_event_by_linear_id` (lines 188–227), single-page driver model:
returns `ok none` immediately when the calendar id or the correlation key
is falsy (the `service` argument is always truthy in `main` and is not
modelled); otherwise searches the window around the target (or around
now when no target) and returns the first match in store order.  An
HTTP error of the list call is printed and re-raised. -/
def find_event_by_linear_id (now : Int) (days : Nat) (cal : String) (st : GStore)
    (lid : String) (target : Option DateStrM) : Except SyncErr (Option GEvent) :=
  if cal = "" ∨ lid = "" then Except.ok none
  else
    match (match target with
           | some _ => make_search_window_for_date now days target
           | none =>
               Except.ok (now - (days : Int) * 86400, now + (days : Int) * 86400)) with
    | Except.error e => Except.error e
    | Except.ok w =>
      match storeList st w.1 w.2 lid with
      | Except.error e => Except.error e
      | Except.ok items => Except.ok items.head?

/-- The pagination loop of `find_event_by_linear_id` (lines 204–227) over
the store's page trace: each entry is one `events.list` call — either the
page's items or an HTTP error.  A non-empty page returns its first item
immediately; an empty page advances to the next token; an exhausted token
chain returns `none`; a failed call is re-raised. -/
def findPagedE : List (Except SyncErr (List GEvent)) → Except SyncErr (Option GEvent)
  | [] => Except.ok none
  | Except.error e :: _ => Except.error e
  | Except.ok [] :: rest => findPagedE rest
  | Except.ok (x :: _) :: _ => Except.ok (some x)

/-- `upsert_event_for_issue` (lines 349–388): skip (`ok none`) when the
issue has no truthy `dueDate` or no body could be built; otherwise
correlate by the issue id with the due date as window hint, then patch
the found event or insert a new one; store errors are printed and
re-raised. -/
def upsert_event_for_issue (now : Int) (days : Nat) (cal : String) (st : GStore)
    (issue : Issue) : Except SyncErr (Option GEvent × GStore) :=
  match issue.dueDate with
  | none => Except.ok (none, st)
  | some due =>
    match build_event_body_from_issue now issue with
    | Except.error e => Except.error e
    | Except.ok none => Except.ok (none, st)
    | Except.ok (some body) =>
      match find_event_by_linear_id now days cal st (strv issue.id) (some due) with
      | Except.error e => Except.error e
      | Except.ok (some ev) =>
        match storePatch st ev.id body with
        | Except.error e => Except.error e
        | Except.ok (ev2, st2) => Except.ok (some ev2, st2)
      | Except.ok none =>
        match storeInsert st body with
        | Except.error e => Except.error e
        | Except.ok (ev2, st2) => Except.ok (some ev2, st2)

/-- The run summary printed by `main`. -/
structure Summary where
  synced : Nat
  skipped : Nat
  failed : Nat
deriving DecidableEq

/-- The per-issue loop of `main` (lines 402–416): a truthy upsert result
counts as synced, a falsy one as skipped, and any exception is caught,
counted as failed, and the loop continues with the next issue (a failed
store call performed no mutation, so the store state is unchanged). -/
def processIssues (now : Int) (days : Nat) (cal : String) :
    List Issue → GStore → GStore × Summary
  | [], st => (st, ⟨0, 0, 0⟩)
  | issue :: rest, st =>
    match upsert_event_for_issue now days cal st issue with
    | Except.ok (some _, st2) =>
        let r := processIssues now days cal rest st2
        (r.1, ⟨r.2.synced + 1, r.2.skipped, r.2.failed⟩)
    | Except.ok (none, st2) =>
        let r := processIssues now days cal rest st2
        (r.1, ⟨r.2.synced, r.2.skipped + 1, r.2.failed⟩)
    | Except.error _ =>
        let r := processIssues now days cal rest st
        (r.1, ⟨r.2.synced, r.2.skipped, r.2.failed + 1⟩)

/-- `main` (lines 390–423) after credentials are built: the issue fetch
either yields the issue list or raises; a fetch error is printed and
re-raised (line 398), aborting the run before any issue is processed. -/
def mainRun (now : Int) (days : Nat) (cal : String)
    (fetched : Except SyncErr (List Issue)) (st : GStore) :
    Except SyncErr (GStore × Summary) :=
  match fetched with
  | Except.error e => Except.error e
  | Except.ok issues => Except.ok (processIssues now days cal issues st)

/-- The window `make_search_window_for_date` produces for a due string
that `isoparse` accepts: instant ± days, or start of day `v - days` to
end of day `v + days`. -/
def winOf (days : Nat) (due : DateStrM) (v : Int) : Int × Int :=
  if due.hasT then (v - (days : Int) * 86400, v + (days : Int) * 86400)
  else ((v - (days : Int)) * 86400, (v + (days : Int)) * 86400 + 86399)

/-- The candidate list the correlator scans for an issue with a valid
due date: the store's events carrying the issue's correlation key whose
instant lies in the issue's search window. -/
def xcands (days : Nat) (issue : Issue) (due : DateStrM) (v : Int) (st : GStore) :
    List GEvent :=
  st.events.filter (evMatch (strv issue.id) (winOf days due v).1 (winOf days due v).2)

/-- A store whose fault model rejects nothing this run. -/
def healthy (st : GStore) : Prop :=
  st.failSearch = [] ∧ st.failInsert = [] ∧ st.failPatch = []

/-- Store sanity: store-assigned ids are distinct and below the next
id to be assigned. -/
def WFStore (st : GStore) : Prop :=
  (st.events.map GEvent.id).Nodup ∧ ∀ e ∈ st.events, e.id < st.nextId

/-- The issue's event is settled in the store: the first candidate the
correlator would return already carries exactly the body the issue
builds. -/
def InSync (now : Int) (days : Nat) (issue : Issue) (due : DateStrM) (v : Int)
    (st : GStore) : Prop :=
  ∃ m, (xcands days issue due v st).head? = some m ∧
    build_event_body_from_issue now issue = Except.ok (some m.body)

/-- Processing the issue leaves the store unchanged: the upsert either
returns with this store as its result state or raises (in which case the
driver's loop keeps the store as it was). -/
def upsertKeeps (now : Int) (days : Nat) (cal : String) (issue : Issue)
    (st : GStore) : Prop :=
  (∃ r, upsert_event_for_issue now days cal st issue = Except.ok (r, st)) ∨
  (∃ e, upsert_event_for_issue now days cal st issue = Except.error e)

/-- The empty calendar store with a fault-free backend. -/
def st0 : GStore := ⟨[], 0, [], [], []⟩

/-- An issue with a null id and a valid date-only due date (day 100). -/
def issueNoId : Issue :=
  ⟨none, some "T", none, none, some ⟨false, some 100⟩, none, none, none,
    none, none, [], []⟩

/-- An issue with id `I1` and a valid date-only due date (day 19783,
i.e. 2024-03-01). -/
def issueGood : Issue :=
  ⟨some "I1", some "Ship v2", none, none, some ⟨false, some 19783⟩, none,
    none, none, none, none, [], []⟩

/-- An issue with a null id whose due string contains a `T` but is
rejected by `isoparse`. -/
def issueBadT : Issue :=
  ⟨none, some "Ghost", none, none, some ⟨true, none⟩, none, none, none,
    none, none, [], []⟩

/-- An issue with no due date whose project has a populated target
date (day 200). -/
def issueTargetOnly : Issue :=
  ⟨some "LIN-1", some "X", none, none, none, none, none, none,
    some ⟨none, none, none, none, some ⟨false, some 200⟩⟩, none, [], []⟩

/-- An issue with a nonempty id and a malformed date-only due string. -/
def issueBadDay : Issue :=
  ⟨some "X1", some "B", none, none, some ⟨false, none⟩, none, none, none,
    none, none, [], []⟩

/-- An empty store whose backend rejects searches for the key `I1`. -/
def stFailI1 : GStore := ⟨[], 0, ["I1"], [], []⟩

/-- A concrete stored event used to exercise the pagination model. -/
def ev5 : GEvent := ⟨5, mkBodyBase issueGood (EvTime.date 1) (EvTime.date 2)⟩

/-!  ## Lemmas about single building blocks -/

/-- An issue with no truthy dueDate is skipped by the upsert, whatever
the store state (lines 361–363). -/
theorem upsert_skip (now : Int) (days : Nat) (cal : String) (st : GStore)
    (issue : Issue) (h : issue.dueDate = none) :
    upsert_event_for_issue now days cal st issue = Except.ok (none, st) := by
  simp [upsert_event_for_issue, h]

/-- The body built for an issue whose due string parses: the range is an
instant plus one hour, or a day and the following day. -/
theorem build_valid (now : Int) (issue : Issue) (due : DateStrM) (v : Int)
    (hdue : issue.dueDate = some due) (hv : due.parsed = some v) :
    build_event_body_from_issue now issue =
      Except.ok (some (mkBodyBase issue
        (if due.hasT then EvTime.dateTime v else EvTime.date v)
        (if due.hasT then EvTime.dateTime (v + 3600) else EvTime.date (v + 1)))) := by
  cases hT : due.hasT <;> simp [build_event_body_from_issue, hdue, hT, hv, startT]

/-- The search window around a due string `isoparse` accepts. -/
theorem msw_valid (now : Int) (days : Nat) (due : DateStrM) (v : Int)
    (hv : due.parsed = some v) :
    make_search_window_for_date now days (some due) = Except.ok (winOf days due v) := by
  cases hT : due.hasT <;> simp [make_search_window_for_date, winOf, hT, hv]

/-- An issue with a truthy but malformed due date fails with a parse
error when the calendar id and the issue id are truthy: a date-only
string fails in the body builder, a `T` string fails while the window
for the correlator search is built. -/
theorem upsert_malformed (now : Int) (days : Nat) (cal : String) (st : GStore)
    (issue : Issue) (due : DateStrM)
    (hcal : cal ≠ "") (hlid : strv issue.id ≠ "")
    (hdue : issue.dueDate = some due) (hv : due.parsed = none) :
    upsert_event_for_issue now days cal st issue = Except.error SyncErr.parse := by
  cases hT : due.hasT
  · simp [upsert_event_for_issue, build_event_body_from_issue, hdue, hT, hv]
  · simp [upsert_event_for_issue, build_event_body_from_issue, hdue, hT, hv, startT,
      find_event_by_linear_id, hcal, hlid, make_search_window_for_date]

/-- What the correlator returns for a parseable hint when the backend
accepts the search: the first stored event carrying the key inside the
hint's window. -/
theorem find_valid_eq (now : Int) (days : Nat) (cal : String) (st : GStore)
    (lid : String) (due : DateStrM) (v : Int)
    (hcal : cal ≠ "") (hlid : lid ≠ "") (hns : lid ∉ st.failSearch)
    (hv : due.parsed = some v) :
    find_event_by_linear_id now days cal st lid (some due) =
      Except.ok ((st.events.filter
        (evMatch lid (winOf days due v).1 (winOf days due v).2)).head?) := by
  simp [find_event_by_linear_id, hcal, hlid, msw_valid now days due v hv, storeList, hns]

/-- The resolved start instant lies inside its own search window. -/
theorem start_in_winOf (days : Nat) (due : DateStrM) (v : Int) :
    (winOf days due v).1 ≤
      (if due.hasT then EvTime.dateTime v else EvTime.date v).instant ∧
    (if due.hasT then EvTime.dateTime v else EvTime.date v).instant ≤
      (winOf days due v).2 := by
  have hd : (0 : Int) ≤ (days : Int) := Int.natCast_nonneg days
  cases hT : due.hasT <;> simp [winOf, hT, EvTime.instant] <;>
    first
    | (constructor <;> nlinarith)
    | nlinarith

/-- Patching the stored body of an event with the body it already holds
is a no-op, given store-assigned ids are distinct. -/
theorem map_if_id (l : List GEvent) (m : GEvent) (b : EventBody)
    (hn : (l.map GEvent.id).Nodup) (hm : m ∈ l) (hb : m.body = b) :
    l.map (fun e => if e.id = m.id then ⟨m.id, b⟩ else e) = l := by
  induction l with
  | nil => rfl
  | cons a t ih =>
    rw [List.map_cons, List.nodup_cons] at hn
    rcases List.mem_cons.mp hm with rfl | hmt
    · rw [List.map_cons, if_pos rfl]
      have ht : ∀ e ∈ t, (if e.id = m.id then (⟨m.id, b⟩ : GEvent) else e) = e := by
        intro e he
        have : e.id ≠ m.id := fun hEq =>
          hn.1 (hEq ▸ List.mem_map_of_mem GEvent.id he)
        exact if_neg this
      rw [List.map_congr_left ht, List.map_id']
      cases m with
      | mk mid mbody => simp at hb; rw [hb]
    · have hne : a.id ≠ m.id := fun hEq =>
        hn.1 (hEq ▸ List.mem_map_of_mem GEvent.id hmt)
      rw [List.map_cons, if_neg hne, ih hn.2 hmt]

/-- A step that changes only events that fail a filter (before and
after the change) leaves the filtered list unchanged. -/
theorem filter_map_frame (l : List GEvent) (f : GEvent → GEvent) (p : GEvent → Bool)
    (h : ∀ e ∈ l, f e = e ∨ (p e = false ∧ p (f e) = false)) :
    (l.map f).filter p = l.filter p := by
  induction l with
  | nil => rfl
  | cons a t ih =>
    have ht := fun e he => h e (List.mem_cons_of_mem a he)
    rcases h a (List.mem_cons_self a t) with hfa | hpa
    · rw [List.map_cons, hfa, List.filter_cons, List.filter_cons, ih ht]
    · simp [List.map_cons, List.filter_cons, hpa.1, hpa.2, ih ht]

/-- Two stored events with the same id are the same event, given
store-assigned ids are distinct. -/
theorem eq_of_id_mem (l : List GEvent) (e m : GEvent)
    (hn : (l.map GEvent.id).Nodup) (he : e ∈ l) (hm : m ∈ l) (hid : e.id = m.id) :
    e = m := by
  induction l with
  | nil => cases he
  | cons a t ih =>
    rw [List.map_cons, List.nodup_cons] at hn
    rcases List.mem_cons.mp he with rfl | het <;> rcases List.mem_cons.mp hm with rfl | hmt
    · rfl
    · exact absurd (hid ▸ List.mem_map_of_mem GEvent.id hmt) hn.1
    · exact absurd (hid ▸ List.mem_map_of_mem GEvent.id het) hn.1
    · exact ih hn.2 het hmt

/-- Patching the first filter match with a body that still passes the
filter makes the patched event the first filter match. -/
theorem replace_head_filter (l : List GEvent) (p : GEvent → Bool) (m : GEvent)
    (b : EventBody) (hn : (l.map GEvent.id).Nodup)
    (hh : (l.filter p).head? = some m) (hpb : p ⟨m.id, b⟩ = true) :
    ((l.map (fun e => if e.id = m.id then ⟨m.id, b⟩ else e)).filter p).head? =
      some (⟨m.id, b⟩ : GEvent) := by
  induction l with
  | nil => simp at hh
  | cons a t ih =>
    rw [List.map_cons, List.nodup_cons] at hn
    by_cases hpa : p a = true
    · rw [List.filter_cons, if_pos hpa] at hh
      simp only [List.head?] at hh
      have ham : a = m := by injection hh
      subst ham
      have ht : ∀ e ∈ t, (if e.id = a.id then (⟨a.id, b⟩ : GEvent) else e) = e := by
        intro e he
        have : e.id ≠ a.id := fun hEq =>
          hn.1 (hEq ▸ List.mem_map_of_mem GEvent.id he)
        exact if_neg this
      rw [List.map_cons, if_pos rfl, List.map_congr_left ht, List.map_id',
        List.filter_cons, if_pos hpb]
      rfl
    · rw [List.filter_cons, if_neg hpa] at hh
      have hmt : m ∈ t :=
        List.mem_of_mem_filter (List.mem_of_mem_head? (Option.mem_def.mpr hh))
      have hne : a.id ≠ m.id := fun hEq =>
        hn.1 (hEq ▸ List.mem_map_of_mem GEvent.id hmt)
      rw [List.map_cons, if_neg hne, List.filter_cons, if_neg hpa]
      exact ih hn.2 hh

/-- Characterization of the upsert for an issue whose due string parses,
against a fault-free store: patch the first candidate in the search
window with the freshly built body, or insert the built body when no
candidate exists. -/
theorem upsert_valid_eq (now : Int) (days : Nat) (cal : String) (st : GStore)
    (issue : Issue) (due : DateStrM) (v : Int) (body : EventBody)
    (hcal : cal ≠ "") (hlid : strv issue.id ≠ "")
    (hdue : issue.dueDate = some due) (hv : due.parsed = some v)
    (hh : healthy st)
    (hbody : build_event_body_from_issue now issue = Except.ok (some body)) :
    upsert_event_for_issue now days cal st issue =
      match (xcands days issue due v st).head? with
      | some m => Except.ok (some ⟨m.id, body⟩,
          { st with events :=
              st.events.map (fun e => if e.id = m.id then ⟨m.id, body⟩ else e) })
      | none => Except.ok (some ⟨st.nextId, body⟩,
          { st with
              events := st.events ++ [⟨st.nextId, body⟩]
              nextId := st.nextId + 1 }) := by
  have hfind : find_event_by_linear_id now days cal st (strv issue.id) (some due) =
      Except.ok ((xcands days issue due v st).head?) :=
    find_valid_eq now days cal st (strv issue.id) due v hcal hlid
      (by simp [hh.1]) hv
  simp only [upsert_event_for_issue, hdue, hbody, hfind]
  cases h : (xcands days issue due v st).head? with
  | none => simp [storeInsert, hh.2.1]
  | some m => simp [storePatch, hh.2.2]

/-- When the issue's event is already settled, the upsert patches the
first candidate with the body it already holds, and the store is
unchanged. -/
theorem upsert_noop_of_insync (now : Int) (days : Nat) (cal : String) (st : GStore)
    (issue : Issue) (due : DateStrM) (v : Int)
    (hcal : cal ≠ "") (hlid : strv issue.id ≠ "")
    (hdue : issue.dueDate = some due) (hv : due.parsed = some v)
    (hh : healthy st) (hWF : WFStore st)
    (hIS : InSync now days issue due v st) :
    ∃ r, upsert_event_for_issue now days cal st issue = Except.ok (some r, st) := by
  obtain ⟨m, hhead, hbuild⟩ := hIS
  have hueq := upsert_valid_eq now days cal st issue due v m.body hcal hlid hdue hv
    hh hbuild
  rw [hhead] at hueq
  have hueq2 : upsert_event_for_issue now days cal st issue =
      Except.ok (some (⟨m.id, m.body⟩ : GEvent), GStore.mk
        (st.events.map (fun e => if e.id = m.id then ⟨m.id, m.body⟩ else e))
        st.nextId st.failSearch st.failInsert st.failPatch) := hueq
  have hm : m ∈ st.events :=
    List.mem_of_mem_filter (List.mem_of_mem_head? (Option.mem_def.mpr hhead))
  refine ⟨⟨m.id, m.body⟩, ?_⟩
  rw [hueq2, map_if_id st.events m m.body hWF.1 hm rfl]

/-- Processing an issue with a parseable due date against a fault-free,
well-formed store succeeds, keeps the store fault-free and well-formed,
settles the issue's event, and leaves every other correlation key's
candidate list untouched. -/
theorem upsert_establish (now : Int) (days : Nat) (cal : String) (st : GStore)
    (issue : Issue) (due : DateStrM) (v : Int)
    (hcal : cal ≠ "") (hlid : strv issue.id ≠ "")
    (hdue : issue.dueDate = some due) (hv : due.parsed = some v)
    (hh : healthy st) (hWF : WFStore st) :
    ∃ r st2, upsert_event_for_issue now days cal st issue = Except.ok (some r, st2) ∧
      healthy st2 ∧ WFStore st2 ∧ InSync now days issue due v st2 ∧
      ∀ lid2 tmin tmax, lid2 ≠ strv issue.id →
        st2.events.filter (evMatch lid2 tmin tmax) =
          st.events.filter (evMatch lid2 tmin tmax) := by
  have hbuild := build_valid now issue due v hdue hv
  set body := mkBodyBase issue
    (if due.hasT then EvTime.dateTime v else EvTime.date v)
    (if due.hasT then EvTime.dateTime (v + 3600) else EvTime.date (v + 1))
    with hbodydef
  have hstart : body.start = if due.hasT then EvTime.dateTime v else EvTime.date v := rfl
  have hblid : body.linear_id = strv issue.id := rfl
  have hwin := start_in_winOf days due v
  have hmatchAny : ∀ i : Nat,
      evMatch (strv issue.id) (winOf days due v).1 (winOf days due v).2 ⟨i, body⟩
        = true := by
    intro i
    have h1 := hwin.1
    have h2 := hwin.2
    rw [← hstart] at h1 h2
    simp [evMatch, hblid, h1, h2]
  have hmismatch : ∀ (lid2 : String) (tmin tmax : Int) (i : Nat),
      lid2 ≠ strv issue.id → evMatch lid2 tmin tmax ⟨i, body⟩ = false := by
    intro lid2 tmin tmax i hne
    have hbe : (body.linear_id == lid2) = false := by
      rw [hblid]
      exact beq_eq_false_iff_ne.mpr (Ne.symm hne)
    simp [evMatch, hbe]
  have hueq := upsert_valid_eq now days cal st issue due v body hcal hlid hdue hv hh
    hbuild
  cases hhead : (xcands days issue due v st).head? with
  | none =>
    rw [hhead] at hueq
    have hueq2 : upsert_event_for_issue now days cal st issue =
        Except.ok (some (⟨st.nextId, body⟩ : GEvent), GStore.mk
          (st.events ++ [⟨st.nextId, body⟩])
          (st.nextId + 1) st.failSearch st.failInsert st.failPatch) := hueq
    have hempty : st.events.filter
        (evMatch (strv issue.id) (winOf days due v).1 (winOf days due v).2) = [] :=
      List.head?_eq_none_iff.mp hhead
    refine ⟨_, _, hueq2, hh, ?_, ?_, ?_⟩
    · constructor
      · show ((st.events ++ [(⟨st.nextId, body⟩ : GEvent)]).map GEvent.id).Nodup
        rw [List.map_append, List.nodup_append]
        refine ⟨hWF.1, List.nodup_singleton _, ?_⟩
        intro a ha hb
        simp at hb
        obtain ⟨e, he, rfl⟩ := List.mem_map.mp ha
        exact absurd hb (Nat.ne_of_lt (hWF.2 e he))
      · show ∀ e ∈ st.events ++ [(⟨st.nextId, body⟩ : GEvent)], e.id < st.nextId + 1
        intro e he
        rcases List.mem_append.mp he with h1 | h1
        · exact Nat.lt_succ_of_lt (hWF.2 e h1)
        · simp at h1
          rw [h1]
          exact Nat.lt_succ_self _
    · refine ⟨(⟨st.nextId, body⟩ : GEvent), ?_, hbuild⟩
      show ((st.events ++ [(⟨st.nextId, body⟩ : GEvent)]).filter
        (evMatch (strv issue.id) (winOf days due v).1 (winOf days due v).2)).head?
          = some (⟨st.nextId, body⟩ : GEvent)
      rw [List.filter_append, hempty, List.nil_append, List.filter_cons,
        if_pos (hmatchAny st.nextId)]
      rfl
    · intro lid2 tmin tmax hne
      show (st.events ++ [(⟨st.nextId, body⟩ : GEvent)]).filter
          (evMatch lid2 tmin tmax)
        = st.events.filter (evMatch lid2 tmin tmax)
      rw [List.filter_append, List.filter_cons,
        if_neg (by rw [hmismatch lid2 tmin tmax st.nextId hne]; simp)]
      simp
  | some m =>
    rw [hhead] at hueq
    have hueq2 : upsert_event_for_issue now days cal st issue =
        Except.ok (some (⟨m.id, body⟩ : GEvent), GStore.mk
          (st.events.map (fun e => if e.id = m.id then ⟨m.id, body⟩ else e))
          st.nextId st.failSearch st.failInsert st.failPatch) := hueq
    have hmx : m ∈ xcands days issue due v st :=
      List.mem_of_mem_head? (Option.mem_def.mpr hhead)
    have hm : m ∈ st.events := List.mem_of_mem_filter hmx
    have hpm : evMatch (strv issue.id) (winOf days due v).1 (winOf days due v).2 m
        = true := List.of_mem_filter hmx
    have hmlid : m.body.linear_id = strv issue.id := by
      simp [evMatch] at hpm
      exact hpm.1.1
    refine ⟨_, _, hueq2, hh, ?_, ?_, ?_⟩
    · constructor
      · show ((st.events.map
          (fun e => if e.id = m.id then (⟨m.id, body⟩ : GEvent) else e)).map
            GEvent.id).Nodup
        have hids : (st.events.map
            (fun e => if e.id = m.id then (⟨m.id, body⟩ : GEvent) else e)).map
              GEvent.id = st.events.map GEvent.id := by
          rw [List.map_map]
          apply List.map_congr_left
          intro e he
          by_cases hc : e.id = m.id <;> simp [Function.comp, hc]
        rw [hids]
        exact hWF.1
      · show ∀ e2 ∈ st.events.map
          (fun e => if e.id = m.id then (⟨m.id, body⟩ : GEvent) else e),
            e2.id < st.nextId
        intro e2 he2
        obtain ⟨e, he, rfl⟩ := List.mem_map.mp he2
        have hfe : (if e.id = m.id then (⟨m.id, body⟩ : GEvent) else e).id = e.id := by
          by_cases hc : e.id = m.id <;> simp [hc]
        rw [hfe]
        exact hWF.2 e he
    · exact ⟨(⟨m.id, body⟩ : GEvent),
        replace_head_filter st.events _ m body hWF.1 hhead (hmatchAny m.id), hbuild⟩
    · intro lid2 tmin tmax hne
      show (st.events.map
          (fun e => if e.id = m.id then (⟨m.id, body⟩ : GEvent) else e)).filter
            (evMatch lid2 tmin tmax)
        = st.events.filter (evMatch lid2 tmin tmax)
      apply filter_map_frame
      intro e he
      by_cases hc : e.id = m.id
      · right
        have hem : e = m := eq_of_id_mem st.events e m hWF.1 he hm hc
        constructor
        · have hbe : (e.body.linear_id == lid2) = false := by
            rw [hem, hmlid]
            exact beq_eq_false_iff_ne.mpr (Ne.symm hne)
          simp [evMatch, hbe]
        · simpa [hc] using hmismatch lid2 tmin tmax m.id hne
      · left
        simp [hc]


/-- The driver loop preserves the settled state of an issue whose
correlation key differs from every processed issue's key, while keeping
the store fault-free and well-formed. -/
theorem run_preserves (now : Int) (days : Nat) (cal : String)
    (issue : Issue) (due : DateStrM) (v : Int)
    (hcal : cal ≠ "") (hdue : issue.dueDate = some due) (hv : due.parsed = some v) :
    ∀ (rest : List Issue) (B : GStore),
      (∀ Y ∈ rest, strv Y.id ≠ "" ∧ strv Y.id ≠ strv issue.id) →
      healthy B → WFStore B → InSync now days issue due v B →
      healthy (processIssues now days cal rest B).1 ∧
      WFStore (processIssues now days cal rest B).1 ∧
      InSync now days issue due v (processIssues now days cal rest B).1 := by
  intro rest
  induction rest with
  | nil =>
    intro B _ hh hWF hIS
    exact ⟨hh, hWF, hIS⟩
  | cons Y t ih =>
    intro B hY hh hWF hIS
    obtain ⟨hYlid, hYne⟩ := hY Y (List.mem_cons_self Y t)
    have hYt := fun Z hZ => hY Z (List.mem_cons_of_mem Y hZ)
    cases hYdue : Y.dueDate with
    | none =>
      have hstep := upsert_skip now days cal B Y hYdue
      simp only [processIssues, hstep]
      exact ih B hYt hh hWF hIS
    | some dY =>
      cases hYv : dY.parsed with
      | none =>
        have hstep := upsert_malformed now days cal B Y dY hcal hYlid hYdue hYv
        simp only [processIssues, hstep]
        exact ih B hYt hh hWF hIS
      | some vY =>
        obtain ⟨r, B2, hstep, hh2, hWF2, _, hframe⟩ :=
          upsert_establish now days cal B Y dY vY hcal hYlid hYdue hYv hh hWF
        simp only [processIssues, hstep]
        have hx : xcands days issue due v B2 = xcands days issue due v B :=
          hframe (strv issue.id) (winOf days due v).1 (winOf days due v).2
            (Ne.symm hYne)
        have hIS2 : InSync now days issue due v B2 := by
          obtain ⟨m, hm1, hm2⟩ := hIS
          refine ⟨m, ?_, hm2⟩
          rw [hx]
          exact hm1
        exact ih B2 hYt hh2 hWF2 hIS2

/-- After the driver has processed a batch of issues with distinct,
truthy ids against a fault-free well-formed store, re-processing any of
its issues leaves the resulting store untouched. -/
theorem run_post (now : Int) (days : Nat) (cal : String) :
    ∀ (issues : List Issue) (st : GStore),
      cal ≠ "" → (∀ X ∈ issues, strv X.id ≠ "") →
      issues.Pairwise (fun a b => strv a.id ≠ strv b.id) →
      healthy st → WFStore st →
      healthy (processIssues now days cal issues st).1 ∧
      WFStore (processIssues now days cal issues st).1 ∧
      ∀ X ∈ issues,
        upsertKeeps now days cal X (processIssues now days cal issues st).1 := by
  intro issues
  induction issues with
  | nil =>
    intro st _ _ _ hh hWF
    refine ⟨hh, hWF, ?_⟩
    intro X hX
    cases hX
  | cons X rest ih =>
    intro st hcal hids hpw hh hWF
    have hXlid : strv X.id ≠ "" := hids X (List.mem_cons_self X rest)
    have hidt := fun Z hZ => hids Z (List.mem_cons_of_mem X hZ)
    have hpwX := (List.pairwise_cons.mp hpw).1
    have hpwt := (List.pairwise_cons.mp hpw).2
    cases hXdue : X.dueDate with
    | none =>
      have hstep := upsert_skip now days cal st X hXdue
      simp only [processIssues, hstep]
      obtain ⟨hh1, hWF1, hkeeps⟩ := ih st hcal hidt hpwt hh hWF
      refine ⟨hh1, hWF1, ?_⟩
      intro Z hZ
      rcases List.mem_cons.mp hZ with rfl | hZt
      · exact Or.inl ⟨none, upsert_skip now days cal _ Z hXdue⟩
      · exact hkeeps Z hZt
    | some dX =>
      cases hXv : dX.parsed with
      | none =>
        have hstep := upsert_malformed now days cal st X dX hcal hXlid hXdue hXv
        simp only [processIssues, hstep]
        obtain ⟨hh1, hWF1, hkeeps⟩ := ih st hcal hidt hpwt hh hWF
        refine ⟨hh1, hWF1, ?_⟩
        intro Z hZ
        rcases List.mem_cons.mp hZ with rfl | hZt
        · exact Or.inr ⟨SyncErr.parse,
            upsert_malformed now days cal _ Z dX hcal hXlid hXdue hXv⟩
        · exact hkeeps Z hZt
      | some vX =>
        obtain ⟨r, st2, hstep, hh2, hWF2, hIS2, _⟩ :=
          upsert_establish now days cal st X dX vX hcal hXlid hXdue hXv hh hWF
        simp only [processIssues, hstep]
        obtain ⟨hh1, hWF1, hkeeps⟩ := ih st2 hcal hidt hpwt hh2 hWF2
        refine ⟨hh1, hWF1, ?_⟩
        intro Z hZ
        rcases List.mem_cons.mp hZ with rfl | hZt
        · have hrest : ∀ Y ∈ rest, strv Y.id ≠ "" ∧ strv Y.id ≠ strv Z.id := by
            intro Y hY
            exact ⟨hidt Y hY, fun hEq => hpwX Y hY hEq.symm⟩
          obtain ⟨hh3, hWF3, hIS3⟩ := run_preserves now days cal Z dX vX hcal
            hXdue hXv rest st2 hrest hh2 hWF2 hIS2
          obtain ⟨r2, hr2⟩ := upsert_noop_of_insync now days cal _ Z dX vX hcal
            hXlid hXdue hXv hh3 hWF3 hIS3
          exact Or.inl ⟨some r2, hr2⟩
        · exact hkeeps Z hZt

/-- A driver pass over a batch whose every issue is settled or fails
deterministically leaves the store unchanged. -/
theorem run_noop (now : Int) (days : Nat) (cal : String) :
    ∀ (issues : List Issue) (B : GStore),
      (∀ X ∈ issues, upsertKeeps now days cal X B) →
      (processIssues now days cal issues B).1 = B := by
  intro issues
  induction issues with
  | nil =>
    intro B _
    rfl
  | cons X rest ih =>
    intro B hk
    have hrest := fun Z hZ => hk Z (List.mem_cons_of_mem X hZ)
    rcases hk X (List.mem_cons_self X rest) with ⟨r, hr⟩ | ⟨e, he⟩
    · cases r with
      | some ev =>
        simp only [processIssues, hr]
        exact ih B hrest
      | none =>
        simp only [processIssues, hr]
        exact ih B hrest
    · simp only [processIssues, he]
      exact ih B hrest


/-- C2 counterexample: an issue with no due date but a populated project
target date resolves (via `get_best_date_for_issue`) to the project's
target date, yet the driver records it as Skipped and writes no event:
the driver schedules from `dueDate` alone and never calls the resolver. -/
theorem C2_counterexample :
    get_best_date_for_issue issueTargetOnly =
      some (⟨false, some 200⟩, "project_targetDate") ∧
    processIssues 0 365 "primary" [issueTargetOnly] st0 = (st0, ⟨0, 1, 0⟩) :=
  ⟨rfl, rfl⟩

/-- C2 (amended): `get_best_date_for_issue` implements the priority
order — due date, then project target date, then completion, start and
creation timestamps — but the driver never invokes it:
`upsert_event_for_issue` skips exactly when the issue has no truthy
`dueDate`, whatever lower-priority date fields are populated. -/
theorem C2_resolver_priority_driver_dueDate_only :
    (∀ (issue : Issue) (d : DateStrM),
      issue.dueDate = some d →
      get_best_date_for_issue issue = some (d, "dueDate")) ∧
    (∀ (issue : Issue) (p : Project) (d : DateStrM),
      issue.dueDate = none → issue.project = some p → p.targetDate = some d →
      get_best_date_for_issue issue = some (d, "project_targetDate")) ∧
    (∀ (issue : Issue) (d : DateStrM),
      issue.dueDate = none →
      (issue.project.getD Project.empty).targetDate = none →
      issue.completedAt = some d →
      get_best_date_for_issue issue = some (d, "completedAt")) ∧
    (∀ (issue : Issue) (d : DateStrM),
      issue.dueDate = none →
      (issue.project.getD Project.empty).targetDate = none →
      issue.completedAt = none → issue.startedAt = some d →
      get_best_date_for_issue issue = some (d, "startedAt")) ∧
    (∀ (issue : Issue) (d : DateStrM),
      issue.dueDate = none →
      (issue.project.getD Project.empty).targetDate = none →
      issue.completedAt = none → issue.startedAt = none →
      issue.createdAt = some d →
      get_best_date_for_issue issue = some (d, "createdAt")) ∧
    (∀ issue : Issue,
      issue.dueDate = none →
      (issue.project.getD Project.empty).targetDate = none →
      issue.completedAt = none → issue.startedAt = none →
      issue.createdAt = none →
      get_best_date_for_issue issue = none) ∧
    (∀ (now : Int) (days : Nat) (cal : String) (st : GStore) (issue : Issue),
      issue.dueDate = none →
      upsert_event_for_issue now days cal st issue = Except.ok (none, st)) := by
  refine ⟨?_, ?_, ?_, ?_, ?_, ?_, ?_⟩
  · intro issue d h
    simp [get_best_date_for_issue, h]
  · intro issue p d h1 h2 h3
    simp [get_best_date_for_issue, h1, h2, h3]
  · intro issue d h1 h2 h3
    simp [get_best_date_for_issue, h1, h2, h3]
  · intro issue d h1 h2 h3 h4
    simp [get_best_date_for_issue, h1, h2, h3, h4]
  · intro issue d h1 h2 h3 h4 h5
    simp [get_best_date_for_issue, h1, h2, h3, h4, h5]
  · intro issue h1 h2 h3 h4 h5
    simp [get_best_date_for_issue, h1, h2, h3, h4, h5]
  · intro now days cal st issue h
    exact upsert_skip now days cal st issue h

/-- Witness for C2 at a concrete issue carrying only a project target
date: the resolver resolves it, the driver skips it. -/
theorem C2_witness :
    get_best_date_for_issue issueTargetOnly =
      some (⟨false, some 200⟩, "project_targetDate") ∧
    upsert_event_for_issue 0 365 "primary" st0 issueTargetOnly =
      Except.ok (none, st0) :=
  ⟨C2_resolver_priority_driver_dueDate_only.2.1 issueTargetOnly
      ⟨none, none, none, none, some ⟨false, some 200⟩⟩ ⟨false, some 200⟩ rfl rfl rfl,
   C2_resolver_priority_driver_dueDate_only.2.2.2.2.2.2 0 365 "primary" st0
      issueTargetOnly rfl⟩

/-- C3: every built event body has either a dateTime start with a
dateTime end exactly one hour later (due string with a time component),
or a date start equal to the parsed day with a date end exactly one day
later (date-only due string). -/
theorem C3_event_shape (now : Int) (issue : Issue) (body : EventBody)
    (h : build_event_body_from_issue now issue = Except.ok (some body)) :
    ∃ due, issue.dueDate = some due ∧
      (due.hasT = true →
        ∃ t, body.start = EvTime.dateTime t ∧
          body.end_ = EvTime.dateTime (t + 3600)) ∧
      (due.hasT = false →
        ∃ d, due.parsed = some d ∧ body.start = EvTime.date d ∧
          body.end_ = EvTime.date (d + 1)) := by
  cases hdue : issue.dueDate with
  | none => simp [build_event_body_from_issue, hdue] at h
  | some due =>
    refine ⟨due, rfl, ?_, ?_⟩
    · intro hT
      simp only [build_event_body_from_issue, hdue, hT, if_true,
        Except.ok.injEq, Option.some.injEq] at h
      exact ⟨startT now due, by rw [← h]; rfl, by rw [← h]; rfl⟩
    · intro hT
      cases hp : due.parsed with
      | none => simp [build_event_body_from_issue, hdue, hT, hp] at h
      | some d =>
        simp only [build_event_body_from_issue, hdue, hT, hp, Bool.false_eq_true,
          if_false, Except.ok.injEq, Option.some.injEq] at h
        exact ⟨d, rfl, by rw [← h]; rfl, by rw [← h]; rfl⟩

/-- Witness for C3 at a concrete date-only issue (due day 19783). -/
theorem C3_witness :
    build_event_body_from_issue 0 issueGood =
      Except.ok (some (mkBodyBase issueGood (EvTime.date 19783)
        (EvTime.date 19784))) ∧
    ∃ due, issueGood.dueDate = some due ∧
      (due.hasT = true →
        ∃ t, (mkBodyBase issueGood (EvTime.date 19783)
            (EvTime.date 19784)).start = EvTime.dateTime t ∧
          (mkBodyBase issueGood (EvTime.date 19783)
            (EvTime.date 19784)).end_ = EvTime.dateTime (t + 3600)) ∧
      (due.hasT = false →
        ∃ d, due.parsed = some d ∧
          (mkBodyBase issueGood (EvTime.date 19783)
            (EvTime.date 19784)).start = EvTime.date d ∧
          (mkBodyBase issueGood (EvTime.date 19783)
            (EvTime.date 19784)).end_ = EvTime.date (d + 1)) :=
  ⟨rfl, C3_event_shape 0 issueGood _ rfl⟩

/-- C4 counterexample: a failing issue fetch does not make the run
complete normally with zero items — `main` logs and re-raises, so the
model run aborts with the fetch error. -/
theorem C4_counterexample :
    mainRun 0 365 "primary" (Except.error SyncErr.http) st0 =
      Except.error SyncErr.http ∧
    mainRun 0 365 "primary" (Except.error SyncErr.http) st0 ≠
      Except.ok (st0, ⟨0, 0, 0⟩) :=
  ⟨rfl, by simp [mainRun]⟩

/-- C4 (amended): when the source fetch raises, `main` re-raises after
logging: the whole run aborts with that error before any issue is
processed, instead of continuing with an empty item list. -/
theorem C4_fetch_error_aborts (now : Int) (days : Nat) (cal : String)
    (e : SyncErr) (st : GStore) :
    mainRun now days cal (Except.error e) st = Except.error e := rfl

/-- C5 counterexample: an issue with a falsy id and a malformed due
string containing a `T` is not tallied Failed — the body builder falls
back to the current time, the correlator's falsy-id guard skips the
search (and with it the parse that would have raised), and the item is
inserted at `now` and tallied Synced. -/
theorem C5_counterexample :
    (processIssues 1000 365 "primary" [issueBadT] st0).2 = ⟨1, 0, 0⟩ ∧
    (processIssues 1000 365 "primary" [issueBadT] st0).1.events.map
      (fun e => e.body.start) = [EvTime.dateTime 1000] :=
  ⟨rfl, rfl⟩

/-- C5 (amended): for an issue with a truthy id (and a truthy calendar
id) whose due string is present but rejected by the parser, processing
fails with a parse error — it is not rescheduled — and the run continues
with the remaining issues, tallying exactly one extra failure. -/
theorem C5_malformed_date_fails_item (now : Int) (days : Nat) (cal : String)
    (st : GStore) (issue : Issue) (rest : List Issue) (due : DateStrM)
    (hcal : cal ≠ "") (hlid : strv issue.id ≠ "")
    (hdue : issue.dueDate = some due) (hmal : due.parsed = none) :
    upsert_event_for_issue now days cal st issue = Except.error SyncErr.parse ∧
    processIssues now days cal (issue :: rest) st =
      ((processIssues now days cal rest st).1,
       ⟨(processIssues now days cal rest st).2.synced,
        (processIssues now days cal rest st).2.skipped,
        (processIssues now days cal rest st).2.failed + 1⟩) := by
  have h := upsert_malformed now days cal st issue due hcal hlid hdue hmal
  refine ⟨h, ?_⟩
  simp only [processIssues, h]

/-- Witness for C5 at a concrete malformed date-only issue, followed by
a good issue that still syncs. -/
theorem C5_witness :
    upsert_event_for_issue 0 365 "primary" st0 issueBadDay =
      Except.error SyncErr.parse ∧
    processIssues 0 365 "primary" [issueBadDay, issueGood] st0 =
      ((processIssues 0 365 "primary" [issueGood] st0).1,
       ⟨(processIssues 0 365 "primary" [issueGood] st0).2.synced,
        (processIssues 0 365 "primary" [issueGood] st0).2.skipped,
        (processIssues 0 365 "primary" [issueGood] st0).2.failed + 1⟩) :=
  C5_malformed_date_fails_item 0 365 "primary" st0 issueBadDay [issueGood]
    ⟨false, none⟩ (by decide) (by decide) rfl rfl


/-- C6: the correlator's pagination loop returns the first event of the
first non-empty page in store order, and returns no match (without
error) when the token chain is exhausted with only empty pages. -/
theorem C6_pagination_first_match :
    (∀ (pre : List (Except SyncErr (List GEvent))) (x : GEvent)
        (xs : List GEvent) (post : List (Except SyncErr (List GEvent))),
      (∀ q ∈ pre, q = Except.ok ([] : List GEvent)) →
      findPagedE (pre ++ Except.ok (x :: xs) :: post) = Except.ok (some x)) ∧
    (∀ pages : List (Except SyncErr (List GEvent)),
      (∀ q ∈ pages, q = Except.ok ([] : List GEvent)) →
      findPagedE pages = Except.ok none) := by
  constructor
  · intro pre x xs post hpre
    induction pre with
    | nil => rfl
    | cons q t ih =>
      have hq := hpre q (List.mem_cons_self q t)
      subst hq
      exact ih fun z hz => hpre z (List.mem_cons_of_mem _ hz)
  · intro pages hp
    induction pages with
    | nil => rfl
    | cons q t ih =>
      have hq := hp q (List.mem_cons_self q t)
      subst hq
      exact ih fun z hz => hp z (List.mem_cons_of_mem _ hz)

/-- Witness for C6: one empty page followed by a page holding `ev5`
yields `ev5`; an exhausted chain of empty pages yields no match. -/
theorem C6_witness :
    findPagedE [Except.ok [], Except.ok [ev5]] = Except.ok (some ev5) ∧
    findPagedE [Except.ok [], Except.ok []] = Except.ok none :=
  ⟨C6_pagination_first_match.1 [Except.ok []] ev5 [] [] (by simp),
   C6_pagination_first_match.2 [Except.ok [], Except.ok []] (by simp)⟩

/-- C7: a store error during the correlator's page loop propagates out
of the loop (it is never converted into a no-match result), and in the
driver a failing search makes the item being correlated count as Failed
while the rest of the batch continues. -/
theorem C7_search_failure_propagates :
    (∀ (pre : List (Except SyncErr (List GEvent))) (e : SyncErr)
        (post : List (Except SyncErr (List GEvent))),
      (∀ q ∈ pre, q = Except.ok ([] : List GEvent)) →
      findPagedE (pre ++ Except.error e :: post) = Except.error e) ∧
    (∀ (now : Int) (days : Nat) (cal : String) (st : GStore) (issue : Issue)
        (rest : List Issue) (due : DateStrM) (v : Int),
      cal ≠ "" → strv issue.id ≠ "" →
      issue.dueDate = some due → due.parsed = some v →
      strv issue.id ∈ st.failSearch →
      upsert_event_for_issue now days cal st issue = Except.error SyncErr.http ∧
      processIssues now days cal (issue :: rest) st =
        ((processIssues now days cal rest st).1,
         ⟨(processIssues now days cal rest st).2.synced,
          (processIssues now days cal rest st).2.skipped,
          (processIssues now days cal rest st).2.failed + 1⟩)) := by
  constructor
  · intro pre e post hpre
    induction pre with
    | nil => rfl
    | cons q t ih =>
      have hq := hpre q (List.mem_cons_self q t)
      subst hq
      exact ih fun z hz => hpre z (List.mem_cons_of_mem _ hz)
  · intro now days cal st issue rest due v hcal hlid hdue hv hmem
    have hbuild := build_valid now issue due v hdue hv
    have hup : upsert_event_for_issue now days cal st issue
        = Except.error SyncErr.http := by
      simp [upsert_event_for_issue, hdue, hbuild, find_event_by_linear_id,
        hcal, hlid, msw_valid now days due v hv, storeList, hmem]
    refine ⟨hup, ?_⟩
    simp only [processIssues, hup]

/-- Witness for C7: a failing search for the key `I1` makes the upsert
raise and the one-item batch tally a single failure. -/
theorem C7_witness :
    upsert_event_for_issue 0 365 "primary" stFailI1 issueGood =
      Except.error SyncErr.http ∧
    processIssues 0 365 "primary" [issueGood] stFailI1 =
      ((processIssues 0 365 "primary" ([] : List Issue) stFailI1).1,
       ⟨(processIssues 0 365 "primary" ([] : List Issue) stFailI1).2.synced,
        (processIssues 0 365 "primary" ([] : List Issue) stFailI1).2.skipped,
        (processIssues 0 365 "primary" ([] : List Issue) stFailI1).2.failed + 1⟩) :=
  C7_search_failure_propagates.2 0 365 "primary" stFailI1 issueGood []
    ⟨false, some 19783⟩ 19783 (by decide) (by decide) rfl rfl (by decide)

/-- C8: each issue of a batch lands in exactly one tally, so the three
counters sum to the batch length; and an issue whose processing raises
adds exactly one failure, leaves the store as it was, and the loop goes
on with the remaining issues. -/
theorem C8_tally_isolation :
    (∀ (now : Int) (days : Nat) (cal : String) (issues : List Issue) (st : GStore),
      (processIssues now days cal issues st).2.synced +
        (processIssues now days cal issues st).2.skipped +
        (processIssues now days cal issues st).2.failed = issues.length) ∧
    (∀ (now : Int) (days : Nat) (cal : String) (issue : Issue)
        (rest : List Issue) (st : GStore) (e : SyncErr),
      upsert_event_for_issue now days cal st issue = Except.error e →
      processIssues now days cal (issue :: rest) st =
        ((processIssues now days cal rest st).1,
         ⟨(processIssues now days cal rest st).2.synced,
          (processIssues now days cal rest st).2.skipped,
          (processIssues now days cal rest st).2.failed + 1⟩)) := by
  constructor
  · intro now days cal issues
    induction issues with
    | nil =>
      intro st
      rfl
    | cons i t ih =>
      intro st
      cases h : upsert_event_for_issue now days cal st i with
      | error e =>
        have ht := ih st
        simp only [processIssues, h, List.length_cons]
        omega
      | ok pr =>
        obtain ⟨o, st2⟩ := pr
        have ht := ih st2
        cases o with
        | some ev =>
          simp only [processIssues, h, List.length_cons]
          omega
        | none =>
          simp only [processIssues, h, List.length_cons]
          omega
  · intro now days cal issue rest st e h
    simp only [processIssues, h]

/-- Witness for C8: a two-item batch sums to two, and a failing search
on a one-item batch adds exactly one failure. -/
theorem C8_witness :
    (processIssues 0 365 "primary" [issueGood, issueTargetOnly] st0).2.synced +
      (processIssues 0 365 "primary" [issueGood, issueTargetOnly] st0).2.skipped +
      (processIssues 0 365 "primary" [issueGood, issueTargetOnly] st0).2.failed
      = 2 ∧
    processIssues 0 365 "primary" [issueGood] stFailI1 =
      ((processIssues 0 365 "primary" ([] : List Issue) stFailI1).1,
       ⟨(processIssues 0 365 "primary" ([] : List Issue) stFailI1).2.synced,
        (processIssues 0 365 "primary" ([] : List Issue) stFailI1).2.skipped,
        (processIssues 0 365 "primary" ([] : List Issue) stFailI1).2.failed + 1⟩) :=
  ⟨C8_tally_isolation.1 0 365 "primary" [issueGood, issueTargetOnly] st0,
   C8_tally_isolation.2 0 365 "primary" issueGood [] stFailI1 SyncErr.http rfl⟩

/-- C9: the correlator's search window is the hint's instant plus or
minus the configured number of days; for a date-only hint, start of day
`d - days` to end of day `d + days`; with no hint, now plus or minus the
same number of days; the configured default is 365 days. -/
theorem C9_window_selection :
    (∀ (now : Int) (days : Nat) (t : Int),
      make_search_window_for_date now days (some ⟨true, some t⟩) =
        Except.ok (t - (days : Int) * 86400, t + (days : Int) * 86400)) ∧
    (∀ (now : Int) (days : Nat) (d : Int),
      make_search_window_for_date now days (some ⟨false, some d⟩) =
        Except.ok ((d - (days : Int)) * 86400, (d + (days : Int)) * 86400 + 86399)) ∧
    (∀ (now : Int) (days : Nat),
      make_search_window_for_date now days none =
        Except.ok (now - (days : Int) * 86400, now + (days : Int) * 86400)) ∧
    SEARCH_WINDOW_DAYS = 365 ∧
    (∀ (now : Int) (days : Nat) (cal : String) (st : GStore) (lid : String),
      cal ≠ "" → lid ≠ "" → lid ∉ st.failSearch →
      find_event_by_linear_id now days cal st lid none =
        Except.ok ((st.events.filter (evMatch lid (now - (days : Int) * 86400)
          (now + (days : Int) * 86400))).head?)) ∧
    (∀ (now : Int) (days : Nat) (cal : String) (st : GStore) (lid : String)
        (s : DateStrM) (w : Int × Int),
      cal ≠ "" → lid ≠ "" → lid ∉ st.failSearch →
      make_search_window_for_date now days (some s) = Except.ok w →
      find_event_by_linear_id now days cal st lid (some s) =
        Except.ok ((st.events.filter (evMatch lid w.1 w.2)).head?)) := by
  refine ⟨fun now days t => rfl, fun now days d => rfl, fun now days => rfl, rfl,
    ?_, ?_⟩
  · intro now days cal st lid hcal hlid hns
    simp [find_event_by_linear_id, hcal, hlid, storeList, hns]
  · intro now days cal st lid sD w hcal hlid hns hw
    simp [find_event_by_linear_id, hcal, hlid, hw, storeList, hns]

/-- Witness for C9 at concrete windows. -/
theorem C9_witness :
    make_search_window_for_date 7 365 (some ⟨true, some 1000⟩) =
      Except.ok (1000 - ((365 : Nat) : Int) * 86400,
        1000 + ((365 : Nat) : Int) * 86400) ∧
    make_search_window_for_date 7 365 (some ⟨false, some 20⟩) =
      Except.ok ((20 - ((365 : Nat) : Int)) * 86400,
        (20 + ((365 : Nat) : Int)) * 86400 + 86399) ∧
    make_search_window_for_date 7 365 none =
      Except.ok (7 - ((365 : Nat) : Int) * 86400, 7 + ((365 : Nat) : Int) * 86400) ∧
    find_event_by_linear_id 7 365 "primary" st0 "I1" none =
      Except.ok ((st0.events.filter (evMatch "I1" (7 - ((365 : Nat) : Int) * 86400)
        (7 + ((365 : Nat) : Int) * 86400))).head?) :=
  ⟨C9_window_selection.1 7 365 1000,
   C9_window_selection.2.1 7 365 20,
   C9_window_selection.2.2.1 7 365,
   C9_window_selection.2.2.2.2.1 7 365 "primary" st0 "I1" (by decide) (by decide)
     (by decide)⟩

/-- An issue whose id is falsy with a buildable due date is never
correlated: the guard returns no match before any store call, and the
upsert inserts a fresh event whose correlation key is the empty
string. -/
theorem upsert_emptyid (now : Int) (days : Nat) (cal : String) (st : GStore)
    (issue : Issue) (due : DateStrM)
    (hlid : strv issue.id = "") (hdue : issue.dueDate = some due)
    (hday : due.hasT = false → due.parsed.isSome) (hfi : "" ∉ st.failInsert) :
    ∃ body, build_event_body_from_issue now issue = Except.ok (some body) ∧
      body.linear_id = "" ∧
      upsert_event_for_issue now days cal st issue =
        Except.ok (some (⟨st.nextId, body⟩ : GEvent), GStore.mk
          (st.events ++ [⟨st.nextId, body⟩]) (st.nextId + 1)
          st.failSearch st.failInsert st.failPatch) := by
  have hfind : find_event_by_linear_id now days cal st (strv issue.id) (some due)
      = Except.ok none := by
    rw [hlid]
    simp [find_event_by_linear_id]
  obtain ⟨body, hbuild, hbl⟩ : ∃ body,
      build_event_body_from_issue now issue = Except.ok (some body) ∧
      body.linear_id = "" := by
    cases hT : due.hasT with
    | true =>
      refine ⟨mkBodyBase issue (EvTime.dateTime (startT now due))
        (EvTime.dateTime (startT now due + 3600)), ?_, ?_⟩
      · simp [build_event_body_from_issue, hdue, hT]
      · show strv issue.id = ""
        exact hlid
    | false =>
      obtain ⟨d, hd⟩ := Option.isSome_iff_exists.mp (hday hT)
      refine ⟨mkBodyBase issue (EvTime.date d) (EvTime.date (d + 1)), ?_, ?_⟩
      · simp [build_event_body_from_issue, hdue, hT, hd]
      · show strv issue.id = ""
        exact hlid
  refine ⟨body, hbuild, hbl, ?_⟩
  simp only [upsert_event_for_issue, hdue, hbuild, hfind]
  simp [storeInsert, hbl, hfi]

/-- C10: a falsy correlation key short-circuits the correlator to "no
match" regardless of the store, the built body carries the empty string
as its correlation key, the upsert therefore inserts a fresh event, and
two consecutive one-item runs insert two events instead of correlating
the second run with the first run's event. -/
theorem C10_falsy_id_never_correlated :
    (∀ (now : Int) (days : Nat) (cal : String) (st : GStore)
        (target : Option DateStrM),
      find_event_by_linear_id now days cal st "" target = Except.ok none) ∧
    (∀ (now : Int) (issue : Issue) (body : EventBody),
      strv issue.id = "" →
      build_event_body_from_issue now issue = Except.ok (some body) →
      body.linear_id = "") ∧
    (∀ (now : Int) (days : Nat) (cal : String) (st : GStore) (issue : Issue)
        (due : DateStrM),
      strv issue.id = "" → issue.dueDate = some due →
      (due.hasT = false → due.parsed.isSome) → "" ∉ st.failInsert →
      ∃ body, build_event_body_from_issue now issue = Except.ok (some body) ∧
        upsert_event_for_issue now days cal st issue =
          Except.ok (some (⟨st.nextId, body⟩ : GEvent), GStore.mk
            (st.events ++ [⟨st.nextId, body⟩]) (st.nextId + 1)
            st.failSearch st.failInsert st.failPatch)) ∧
    (∀ (now : Int) (days : Nat) (cal : String) (st : GStore) (issue : Issue)
        (due : DateStrM),
      strv issue.id = "" → issue.dueDate = some due →
      (due.hasT = false → due.parsed.isSome) → "" ∉ st.failInsert →
      (processIssues now days cal [issue]
          ((processIssues now days cal [issue] st).1)).1.events.length =
        st.events.length + 2) := by
  refine ⟨?_, ?_, ?_, ?_⟩
  · intro now days cal st target
    simp [find_event_by_linear_id]
  · intro now issue body hlid hbuild
    cases hdue : issue.dueDate with
    | none => simp [build_event_body_from_issue, hdue] at hbuild
    | some due =>
      cases hT : due.hasT with
      | true =>
        simp only [build_event_body_from_issue, hdue, hT, if_true,
          Except.ok.injEq, Option.some.injEq] at hbuild
        rw [← hbuild]
        exact hlid
      | false =>
        cases hp : due.parsed with
        | none => simp [build_event_body_from_issue, hdue, hT, hp] at hbuild
        | some d =>
          simp only [build_event_body_from_issue, hdue, hT, hp,
            Bool.false_eq_true, if_false, Except.ok.injEq,
            Option.some.injEq] at hbuild
          rw [← hbuild]
          exact hlid
  · intro now days cal st issue due h1 h2 h3 h4
    obtain ⟨body, hb, _, hu⟩ := upsert_emptyid now days cal st issue due h1 h2 h3 h4
    exact ⟨body, hb, hu⟩
  · intro now days cal st issue due h1 h2 h3 h4
    obtain ⟨b1, _, _, hu1⟩ := upsert_emptyid now days cal st issue due h1 h2 h3 h4
    have hrun1 : processIssues now days cal [issue] st =
        (GStore.mk (st.events ++ [⟨st.nextId, b1⟩]) (st.nextId + 1)
          st.failSearch st.failInsert st.failPatch, ⟨1, 0, 0⟩) := by
      simp [processIssues, hu1]
    obtain ⟨b2, _, _, hu2⟩ := upsert_emptyid now days cal
      (GStore.mk (st.events ++ [⟨st.nextId, b1⟩]) (st.nextId + 1)
        st.failSearch st.failInsert st.failPatch) issue due h1 h2 h3 h4
    rw [hrun1]
    simp [processIssues, hu2, List.length_append]

/-- Witness for C10 at the concrete null-id issue from the empty
store: two one-item runs leave two events. -/
theorem C10_witness :
    find_event_by_linear_id 0 365 "primary" st0 "" none = Except.ok none ∧
    (∃ body, build_event_body_from_issue 0 issueNoId = Except.ok (some body) ∧
      upsert_event_for_issue 0 365 "primary" st0 issueNoId =
        Except.ok (some (⟨st0.nextId, body⟩ : GEvent), GStore.mk
          (st0.events ++ [⟨st0.nextId, body⟩]) (st0.nextId + 1)
          st0.failSearch st0.failInsert st0.failPatch)) ∧
    (processIssues 0 365 "primary" [issueNoId]
        ((processIssues 0 365 "primary" [issueNoId] st0).1)).1.events.length = 2 :=
  ⟨C10_falsy_id_never_correlated.1 0 365 "primary" st0 none,
   C10_falsy_id_never_correlated.2.2.1 0 365 "primary" st0 issueNoId
     ⟨false, some 100⟩ rfl rfl (by decide) (by decide),
   C10_falsy_id_never_correlated.2.2.2 0 365 "primary" st0 issueNoId
     ⟨false, some 100⟩ rfl rfl (by decide) (by decide)⟩

/-- C1 counterexample: a batch holding one issue with a null id but a
valid due date is not idempotent — the correlator's falsy-id guard
returns no match on every run, so the second run inserts a second event
rather than patching the first run's event. -/
theorem C1_counterexample :
    (processIssues 0 365 "primary" [issueNoId]
        ((processIssues 0 365 "primary" [issueNoId] st0).1)).1 ≠
      (processIssues 0 365 "primary" [issueNoId] st0).1 := by
  decide

/-- C1 (amended): for a batch of issues whose identifiers are truthy
and pairwise distinct, re-running the driver over an unchanged batch
reproduces the calendar state of the first run exactly (fault-free
store, store-assigned ids well-formed, truthy calendar id): the second
run's correlation finds the event written by the first run and patches
it with the body it already holds. -/
theorem C1_run_twice_idempotent (now : Int) (days : Nat) (cal : String)
    (issues : List Issue) (st : GStore)
    (hcal : cal ≠ "") (hids : ∀ X ∈ issues, strv X.id ≠ "")
    (hdist : issues.Pairwise (fun a b => strv a.id ≠ strv b.id))
    (hh : healthy st) (hWF : WFStore st) :
    (processIssues now days cal issues
        (processIssues now days cal issues st).1).1 =
      (processIssues now days cal issues st).1 :=
  run_noop now days cal issues _
    (run_post now days cal issues st hcal hids hdist hh hWF).2.2

/-- Witness for C1 at a concrete one-issue batch from the empty store. -/
theorem C1_witness :
    (processIssues 0 365 "primary" [issueGood]
        ((processIssues 0 365 "primary" [issueGood] st0).1)).1 =
      (processIssues 0 365 "primary" [issueGood] st0).1 :=
  C1_run_twice_idempotent 0 365 "primary" [issueGood] st0 (by decide)
    (by decide) (by simp) ⟨rfl, rfl, rfl⟩
    ⟨List.nodup_nil, fun e he => absurd he (List.not_mem_nil e)⟩

end Sync
